import Mathlib

/-!
Verification of the osu.db beatmap-listing decoder (src/beatmaps.rs).

The decoders from the source are shallowly embedded as pure functions over
byte lists (`List Nat`, each element a byte value).  Floating-point fields
are represented by their raw little-endian bit patterns, so no floating
arithmetic is modelled; the only float operation the source performs is the
`b as f32` cast of a single byte, embedded exactly as the corresponding
IEEE-754 single bit pattern (`f32bitsOfByte`), which is an exact conversion
for every byte value.

The nom combinators used by the source (`map`, `cond`, `count`, `tag`,
`preceded`, `tuple`, the little-endian number parsers and their error
behaviour) are embedded as `pmap`, `pcond`, `count`, `tag`, `preceded`,
`pbind`/`ppure` sequencing and `leNum`, with nom's simple error type
(remaining input at the failure point plus an error kind).
-/

namespace OsuDb

/-- Error codes mirroring the nom error kinds produced by these decoders:
`Eof` from the complete number parsers, `Tag` from marker mismatches and
`Switch` from the enum discriminant matches. -/
inductive ErrorKind where
  | Eof
  | Tag
  | Switch
  deriving DecidableEq, Repr

/-- A decode error, mirroring nom's simple error type: the remaining input
at the failure point and the error kind.  No other data is carried. -/
structure NomError where
  input : List Nat
  code : ErrorKind
  deriving DecidableEq, Repr

/-- A parser over byte lists, mirroring nom's `IResult`: on success it
returns the remaining input together with the parsed value. -/
def Parser (α : Type) : Type := List Nat → Except NomError (List Nat × α)

/-- Consume nothing and return the given value. -/
def ppure {α : Type} (a : α) : Parser α := fun input => .ok (input, a)

/-- Sequencing of parsers, mirroring the `?`-propagation in the source. -/
def pbind {α β : Type} (p : Parser α) (f : α → Parser β) : Parser β := fun input =>
  match p input with
  | .error e => .error e
  | .ok (rest, a) => f a rest

/-- nom's `map` combinator. -/
def pmap {α β : Type} (f : α → β) (p : Parser α) : Parser β := fun input =>
  match p input with
  | .error e => .error e
  | .ok (rest, a) => .ok (rest, f a)

/-- nom's `cond` combinator: run the parser only when the condition holds,
otherwise consume nothing and return `none`. -/
def pcond {α : Type} (c : Prop) [Decidable c] (p : Parser α) : Parser (Option α) :=
  if c then pmap some p else ppure none

/-- nom's `preceded` combinator: run both parsers, keep the second value. -/
def preceded {α β : Type} (p : Parser α) (q : Parser β) : Parser β :=
  pbind p (fun _ => q)

/-- Little-endian interpretation of a byte list as an unsigned integer. -/
def leNat (bs : List Nat) : Nat := bs.foldr (fun b acc => b + 256 * acc) 0

/-- Read `n` bytes and interpret them little-endian.  Like nom's complete
number parsers, insufficient input fails with an `Eof` error carrying the
input at the start of the field. -/
def leNum (n : Nat) : Parser Nat := fun input =>
  if n ≤ input.length then .ok (input.drop n, leNat (input.take n))
  else .error ⟨input, .Eof⟩

/-- nom's `u8`. -/
def u8 : Parser Nat := leNum 1

/-- nom's `le_u16`. -/
def le_u16 : Parser Nat := leNum 2

/-- nom's `le_u32`. -/
def le_u32 : Parser Nat := leNum 4

/-- nom's `le_f32`: a 4-byte little-endian float, represented by its raw
bit pattern. -/
def le_f32 : Parser Nat := leNum 4

/-- nom's `le_f64`: an 8-byte little-endian float, represented by its raw
bit pattern. -/
def le_f64 : Parser Nat := leNum 8

/-- nom's `tag`: match an exact byte sequence, or fail with a `Tag` error
carrying the input at the start of the attempted match. -/
def tag (t : List Nat) : Parser (List Nat) := fun input =>
  if input.take t.length = t then .ok (input.drop t.length, t)
  else .error ⟨input, .Tag⟩

/-- The IEEE-754 single-precision bit pattern of the exact value of a byte,
embedding the source's `b as f32` cast (exact for every byte value, and
indeed every value below `2 ^ 24`). -/
def f32bitsOfByte (b : Nat) : Nat :=
  if b = 0 then 0
  else (Nat.log2 b + 127) * 2 ^ 23 + (b - 2 ^ Nat.log2 b) * 2 ^ (23 - Nat.log2 b)

/-- Modelled from the spec: the common module's boolean decoder (the
`common` source file is not under src).  It reads one byte and decodes
true exactly when the byte is nonzero; an empty buffer is an end-of-buffer
error. -/
def boolean : Parser Bool := fun input =>
  match input with
  | [] => .error ⟨input, .Eof⟩
  | b :: rest => .ok (rest, b != 0)

/-- Modelled from the spec: the common module's tick-based timestamp decoder
(the `common` source file is not under src).  It reads an 8-byte
little-endian tick count; the value is kept as the raw tick count, since no
claim depends on the calendar conversion. -/
def windows_datetime : Parser Nat := leNum 8

/-- Modelled from the spec: the 7-bit-per-byte continuation length encoding
(least significant chunk first) used by presence-tagged strings. -/
def ulebCore : List Nat → Except NomError (List Nat × Nat)
  | [] => .error ⟨[], .Eof⟩
  | b :: rest =>
    if b < 128 then .ok (rest, b)
    else
      match ulebCore rest with
      | .error e => .error e
      | .ok (r, v) => .ok (r, (b - 128) + 128 * v)

/-- A decoded string value: `none` when absent, otherwise the text bytes. -/
abbrev OsuStr : Type := Option (List Nat)

/-- Read exactly `n` bytes, failing with an end-of-buffer error otherwise. -/
def takeBytes (n : Nat) : Parser (List Nat) := fun input =>
  if n ≤ input.length then .ok (input.drop n, input.take n)
  else .error ⟨input, .Eof⟩

/-- Modelled from the spec: the common module's presence-tagged string
decoder (the `common` source file is not under src).  A flag byte
distinguishes absent from present (marker byte 11); when present, a
continuation-encoded byte count is followed by that many text bytes. -/
def osu_string : Parser OsuStr :=
  pbind u8 fun flag =>
  if flag = 11 then
    pbind ulebCore fun len => pmap some (takeBytes len)
  else ppure none

/-- nom's `count` combinator: decode exactly `n` elements, propagating the
first element failure (nom's simple error type makes `count` return the
element's error unchanged). -/
def count {α : Type} (p : Parser α) : Nat → Parser (List α)
  | 0 => ppure []
  | n + 1 => pbind p (fun a => pmap (fun l => a :: l) (count p n))

/-- Represents the ranked status of a beatmap. -/
inductive RankedStatus where
  | Unknown
  | Unsubmitted
  | Pending
  | Ranked
  | Approved
  | Qualified
  | Loved
  deriving DecidableEq, Repr

/-- Represents the different gameplay modes for a beatmap. -/
inductive GameplayMode where
  | Standard
  | Taiko
  | Catch
  | Mania
  deriving DecidableEq, Repr

/-- Represents a timing point found in osu.db (float fields as raw bits). -/
structure TimingPoint where
  bpm : Nat
  song_offset : Nat
  inherited : Bool
  deriving DecidableEq, Repr

/-- Represents a beatmap entry found in osu.db (same fields, in the same
order, as the source structure; floats as raw bits, timestamps as raw
ticks). -/
structure BeatmapEntry where
  size : Option Nat
  artist_name : OsuStr
  artist_name_unicode : OsuStr
  song_title : OsuStr
  song_title_unicode : OsuStr
  creator_name : OsuStr
  difficulty : OsuStr
  audio_filename : OsuStr
  md5 : OsuStr
  beatmap_filename : OsuStr
  ranked_status : RankedStatus
  hitcircle_count : Nat
  slider_count : Nat
  spinner_count : Nat
  last_modification_time : Nat
  approach_rate : Nat
  circle_size : Nat
  hp_drain : Nat
  overall_difficulty : Nat
  slider_velocity : Nat
  star_ratings_std : List (Nat × Nat)
  star_ratings_taiko : List (Nat × Nat)
  star_ratings_ctb : List (Nat × Nat)
  star_ratings_mania : List (Nat × Nat)
  drain_time : Nat
  total_time : Nat
  audio_preview_time : Nat
  timing_points : List TimingPoint
  difficulty_id : Nat
  beatmap_id : Nat
  thread_id : Nat
  grade_std : Nat
  grade_taiko : Nat
  grade_catch : Nat
  grade_mania : Nat
  local_offset : Nat
  stack_leniency : Nat
  gameplay_mode : GameplayMode
  song_source : OsuStr
  song_tags : OsuStr
  online_offset : Nat
  font : OsuStr
  is_unplayed : Bool
  last_played : Nat
  is_osz2 : Bool
  folder_name : OsuStr
  last_checked_online : Nat
  ignore_beatmap_hitsounds : Bool
  ignore_beatmap_skin : Bool
  disable_storyboard : Bool
  disable_video : Bool
  mania_scroll_speed : Nat
  deriving DecidableEq, Repr

/-- Represents the osu.db file. -/
structure BeatmapListing where
  version : Nat
  folder_count : Nat
  account_unlocked : Bool
  account_unlock_date : Nat
  player_name : OsuStr
  beatmaps : List BeatmapEntry
  user_permissions : Nat
  deriving DecidableEq, Repr

/-- Parses a ranked status value (source `ranked_status`): the match on the
byte, with the fall-through arm returning a `Switch` error carrying the
original input. -/
def ranked_status : Parser RankedStatus := fun input =>
  match u8 input with
  | .error e => .error e
  | .ok (rest, status) =>
    if status = 0 then .ok (rest, .Unknown)
    else if status = 1 then .ok (rest, .Unsubmitted)
    else if status = 2 then .ok (rest, .Pending)
    else if status = 4 then .ok (rest, .Ranked)
    else if status = 5 then .ok (rest, .Approved)
    else if status = 6 then .ok (rest, .Qualified)
    else if status = 7 then .ok (rest, .Loved)
    else .error ⟨input, .Switch⟩

/-- Parses a gameplay mode value (source `gameplay_mode`). -/
def gameplay_mode : Parser GameplayMode := fun input =>
  match u8 input with
  | .error e => .error e
  | .ok (rest, status) =>
    if status = 0 then .ok (rest, .Standard)
    else if status = 1 then .ok (rest, .Taiko)
    else if status = 2 then .ok (rest, .Catch)
    else if status = 3 then .ok (rest, .Mania)
    else .error ⟨input, .Switch⟩

/-- Parses an integer-double pair (source `int_double_pair`): marker byte 8,
4-byte unsigned integer, marker byte 13, 8-byte float. -/
def int_double_pair : Parser (Nat × Nat) :=
  pbind (preceded (tag [8]) le_u32) fun int =>
  pbind (preceded (tag [13]) le_f64) fun double =>
  ppure (int, double)

/-- Parses a timing point (source `timing_point`): two 8-byte floats then a
boolean, no framing bytes. -/
def timing_point : Parser TimingPoint :=
  pbind le_f64 fun bpm =>
  pbind le_f64 fun song_offset =>
  pbind boolean fun inherited =>
  ppure { bpm, song_offset, inherited }

/-- Parses a list of star ratings (source `star_ratings`): a 4-byte count
then exactly that many integer-double pairs. -/
def star_ratings : Parser (List (Nat × Nat)) :=
  pbind le_u32 fun total => count int_double_pair total

/-- The difficulty-statistic strategy selected once per entry decoder from
the header version (source: the `parse_difficulty` closure in
`beatmap_entry`): a single byte cast to a float below version 20140609, a
4-byte little-endian float from that version on. -/
def parse_difficulty (version : Nat) : Parser Nat :=
  if version < 20140609 then pmap f32bitsOfByte u8 else le_f32

/-- Parses a beatmap entry (source `beatmap_entry`), in the source's exact
field order, configured by the header version. -/
def beatmap_entry (version : Nat) : Parser BeatmapEntry :=
  pbind (if version < 20191106 then pmap some le_u32 else ppure none) fun size =>
  pbind osu_string fun artist_name =>
  pbind osu_string fun artist_name_unicode =>
  pbind osu_string fun song_title =>
  pbind osu_string fun song_title_unicode =>
  pbind osu_string fun creator_name =>
  pbind osu_string fun difficulty =>
  pbind osu_string fun audio_filename =>
  pbind osu_string fun md5 =>
  pbind osu_string fun beatmap_filename =>
  pbind ranked_status fun ranked_status =>
  pbind le_u16 fun hitcircle_count =>
  pbind le_u16 fun slider_count =>
  pbind le_u16 fun spinner_count =>
  pbind windows_datetime fun last_modification_time =>
  pbind (parse_difficulty version) fun approach_rate =>
  pbind (parse_difficulty version) fun circle_size =>
  pbind (parse_difficulty version) fun hp_drain =>
  pbind (parse_difficulty version) fun overall_difficulty =>
  pbind le_f64 fun slider_velocity =>
  pbind star_ratings fun star_ratings_std =>
  pbind star_ratings fun star_ratings_taiko =>
  pbind star_ratings fun star_ratings_ctb =>
  pbind star_ratings fun star_ratings_mania =>
  pbind le_u32 fun drain_time =>
  pbind le_u32 fun total_time =>
  pbind le_u32 fun audio_preview_time =>
  pbind le_u32 fun timing_point_count =>
  pbind (count timing_point timing_point_count) fun timing_points =>
  pbind le_u32 fun difficulty_id =>
  pbind le_u32 fun beatmap_id =>
  pbind le_u32 fun thread_id =>
  pbind u8 fun grade_std =>
  pbind u8 fun grade_taiko =>
  pbind u8 fun grade_catch =>
  pbind u8 fun grade_mania =>
  pbind le_u16 fun local_offset =>
  pbind le_f32 fun stack_leniency =>
  pbind gameplay_mode fun gameplay_mode =>
  pbind osu_string fun song_source =>
  pbind osu_string fun song_tags =>
  pbind le_u16 fun online_offset =>
  pbind osu_string fun font =>
  pbind boolean fun is_unplayed =>
  pbind windows_datetime fun last_played =>
  pbind boolean fun is_osz2 =>
  pbind osu_string fun folder_name =>
  pbind windows_datetime fun last_checked_online =>
  pbind boolean fun ignore_beatmap_hitsounds =>
  pbind boolean fun ignore_beatmap_skin =>
  pbind boolean fun disable_storyboard =>
  pbind boolean fun disable_video =>
  pbind (pcond (version < 20140609) le_f32) fun _ =>
  pbind le_u32 fun _ =>
  pbind u8 fun mania_scroll_speed =>
  ppure { size, artist_name, artist_name_unicode, song_title,
          song_title_unicode, creator_name, difficulty, audio_filename,
          md5, beatmap_filename, ranked_status, hitcircle_count,
          slider_count, spinner_count, last_modification_time,
          approach_rate, circle_size, hp_drain, overall_difficulty,
          slider_velocity, star_ratings_std, star_ratings_taiko,
          star_ratings_ctb, star_ratings_mania, drain_time, total_time,
          audio_preview_time, timing_points, difficulty_id, beatmap_id,
          thread_id, grade_std, grade_taiko, grade_catch, grade_mania,
          local_offset, stack_leniency, gameplay_mode, song_source,
          song_tags, online_offset, font, is_unplayed, last_played,
          is_osz2, folder_name, last_checked_online,
          ignore_beatmap_hitsounds, ignore_beatmap_skin,
          disable_storyboard, disable_video, mania_scroll_speed }

/-- Parses an osu.db file (source `beatmap_listing`). -/
def beatmap_listing : Parser BeatmapListing :=
  pbind le_u32 fun version =>
  pbind le_u32 fun folder_count =>
  pbind boolean fun account_unlocked =>
  pbind windows_datetime fun account_unlock_date =>
  pbind osu_string fun player_name =>
  pbind le_u32 fun beatmap_count =>
  pbind (count (beatmap_entry version) beatmap_count) fun beatmaps =>
  pbind le_u32 fun user_permissions =>
  ppure { version, folder_count, account_unlocked, account_unlock_date,
          player_name, beatmaps, user_permissions }

/-- The little-endian 4-byte encoding of an unsigned integer, used to build
concrete test buffers. -/
def le4 (n : Nat) : List Nat :=
  [n % 256, n / 256 % 256, n / 65536 % 256, n / 16777216 % 256]

/-- The entry decoded from the concrete test buffer `bufC` under a version
with no size field (at least 20191106). -/
def entC : BeatmapEntry :=
  { size := none, artist_name := none, artist_name_unicode := none,
    song_title := none, song_title_unicode := none, creator_name := none,
    difficulty := none, audio_filename := none, md5 := none,
    beatmap_filename := none, ranked_status := .Ranked,
    hitcircle_count := 1, slider_count := 2, spinner_count := 3,
    last_modification_time := 0,
    approach_rate := 1084227584, circle_size := 1086324736,
    hp_drain := 1088421888, overall_difficulty := 1090519040,
    slider_velocity := 0,
    star_ratings_std := [], star_ratings_taiko := [],
    star_ratings_ctb := [], star_ratings_mania := [],
    drain_time := 60, total_time := 120000, audio_preview_time := 5000,
    timing_points := [⟨64 * 256 ^ 7, 0, true⟩],
    difficulty_id := 10, beatmap_id := 11, thread_id := 12,
    grade_std := 1, grade_taiko := 2, grade_catch := 3, grade_mania := 4,
    local_offset := 5, stack_leniency := 0, gameplay_mode := .Mania,
    song_source := none, song_tags := none, online_offset := 7,
    font := none, is_unplayed := true, last_played := 0, is_osz2 := false,
    folder_name := some [65, 66], last_checked_online := 0,
    ignore_beatmap_hitsounds := true, ignore_beatmap_skin := false,
    disable_storyboard := true, disable_video := false,
    mania_scroll_speed := 4 }

/-- The same entry with the size field present (versions below 20191106). -/
def entB : BeatmapEntry := { entC with size := some 1 }

/-- The entry decoded from `bufA` under version 20140608: the four
difficulty bytes 5, 6, 7, 8 are cast to floats. -/
def entA : BeatmapEntry :=
  { entB with approach_rate := f32bitsOfByte 5, circle_size := f32bitsOfByte 6,
              hp_drain := f32bitsOfByte 7, overall_difficulty := f32bitsOfByte 8 }

/-- A minimal concrete entry buffer without the size field, for versions at
least 20191106 (difficulty statistics as 4-byte floats 5.0, 6.0, 7.0, 8.0;
one timing point; folder name of two bytes). -/
def bufC : List Nat :=
  [0, 0, 0, 0, 0, 0, 0, 0, 0] ++ [4] ++ [1, 0, 2, 0, 3, 0] ++
  List.replicate 8 0 ++
  [0, 0, 160, 64] ++ [0, 0, 192, 64] ++ [0, 0, 224, 64] ++ [0, 0, 0, 65] ++
  List.replicate 8 0 ++
  le4 0 ++ le4 0 ++ le4 0 ++ le4 0 ++
  le4 60 ++ le4 120000 ++ le4 5000 ++
  le4 1 ++ (List.replicate 7 0 ++ [64]) ++ List.replicate 8 0 ++ [1] ++
  le4 10 ++ le4 11 ++ le4 12 ++ [1, 2, 3, 4] ++ [5, 0] ++ le4 0 ++ [3] ++
  [0, 0] ++ [7, 0] ++ [0] ++ [1] ++ List.replicate 8 0 ++ [0] ++
  [11, 2, 65, 66] ++ List.replicate 8 0 ++ [1, 0, 1, 0] ++
  [8, 8, 8, 8] ++ [4]

/-- The same buffer with a leading 4-byte size field, for versions below
20191106 (and at least 20140609). -/
def bufB : List Nat := le4 1 ++ bufC

/-- A minimal concrete entry buffer for versions below 20140609: size field
present, the four difficulty statistics are the single bytes 5, 6, 7, 8,
and the unused 4-byte float region is present before the unconditional
unused 4-byte field. -/
def bufA : List Nat :=
  le4 1 ++ [0, 0, 0, 0, 0, 0, 0, 0, 0] ++ [4] ++ [1, 0, 2, 0, 3, 0] ++
  List.replicate 8 0 ++
  [5, 6, 7, 8] ++
  List.replicate 8 0 ++
  le4 0 ++ le4 0 ++ le4 0 ++ le4 0 ++
  le4 60 ++ le4 120000 ++ le4 5000 ++
  le4 1 ++ (List.replicate 7 0 ++ [64]) ++ List.replicate 8 0 ++ [1] ++
  le4 10 ++ le4 11 ++ le4 12 ++ [1, 2, 3, 4] ++ [5, 0] ++ le4 0 ++ [3] ++
  [0, 0] ++ [7, 0] ++ [0] ++ [1] ++ List.replicate 8 0 ++ [0] ++
  [11, 2, 65, 66] ++ List.replicate 8 0 ++ [1, 0, 1, 0] ++
  [9, 9, 9, 9] ++ [8, 8, 8, 8] ++ [4]

/-- A concrete star-rating list buffer: count 2, then the tagged pairs
(0, bits of 1.2) and (1, bits of 2.3). -/
def bufStars : List Nat :=
  le4 2 ++
  [8] ++ le4 0 ++ [13] ++ [51, 51, 51, 51, 51, 51, 243, 63] ++
  [8] ++ le4 1 ++ [13] ++ [102, 102, 102, 102, 102, 102, 2, 64]

/-- The listing decoded from `bufLcore`. -/
def demoListing : BeatmapListing :=
  { version := 20191106, folder_count := 2, account_unlocked := true,
    account_unlock_date := 0, player_name := some [66, 111, 98],
    beatmaps := [entC], user_permissions := 4 }

/-- A concrete listing buffer: header, one entry (`bufC`), trailing
permissions field — exactly the bytes the listing decoder consumes. -/
def bufLcore : List Nat :=
  le4 20191106 ++ le4 2 ++ [1] ++ List.replicate 8 0 ++
  [11, 3, 66, 111, 98] ++ le4 1 ++ bufC ++ le4 4

/-- `bufLcore` followed by two trailing junk bytes. -/
def bufL : List Nat := bufLcore ++ [222, 173]

/-- The four decoded difficulty statistics of an entry, when the entry
decodes successfully. -/
def diffStats (v : Nat) (i : List Nat) : Option (Nat × Nat × Nat × Nat) :=
  match beatmap_entry v i with
  | .ok (_, e) => some (e.approach_rate, e.circle_size, e.hp_drain, e.overall_difficulty)
  | .error _ => none

/-- The remaining input after `n` successful runs of a parser, if all `n`
succeed. -/
def iterState {α : Type} (p : Parser α) : Nat → List Nat → Option (List Nat)
  | 0, i => some i
  | n + 1, i =>
    match p i with
    | .error _ => none
    | .ok (rest, _) => iterState p n rest

/-! ### Basic facts about the sequencing combinators -/

lemma pbind_ok {α β : Type} {p : Parser α} {f : α → Parser β} {i r : List Nat} {b : β}
    (h : pbind p f i = .ok (r, b)) :
    ∃ m a, p i = .ok (m, a) ∧ f a m = .ok (r, b) := by
  unfold pbind at h
  cases hp : p i with
  | error e => rw [hp] at h; simp at h
  | ok pr =>
    obtain ⟨m, a⟩ := pr
    rw [hp] at h
    exact ⟨m, a, rfl, h⟩

lemma pbind_intro {α β : Type} {p : Parser α} {f : α → Parser β} {i m r : List Nat}
    {a : α} {b : β} (h1 : p i = .ok (m, a)) (h2 : f a m = .ok (r, b)) :
    pbind p f i = .ok (r, b) := by
  unfold pbind
  rw [h1]
  exact h2

lemma ppure_ok {α : Type} {a b : α} {i r : List Nat} (h : ppure a i = .ok (r, b)) :
    i = r ∧ a = b := by
  simp only [ppure, Except.ok.injEq, Prod.mk.injEq] at h
  exact h

lemma pmap_ok {α β : Type} {f : α → β} {p : Parser α} {i r : List Nat} {b : β}
    (h : pmap f p i = .ok (r, b)) : ∃ a, p i = .ok (r, a) ∧ b = f a := by
  unfold pmap at h
  cases hp : p i with
  | error e => rw [hp] at h; simp at h
  | ok pr =>
    obtain ⟨m, a⟩ := pr
    rw [hp] at h
    simp only [Except.ok.injEq, Prod.mk.injEq] at h
    obtain ⟨h1, h2⟩ := h
    subst h1
    exact ⟨a, rfl, h2.symm⟩

/-! ### Exact-width behaviour of the primitive decoders -/

lemma leNum_append {n : Nat} (c t : List Nat) (h : c.length = n) :
    leNum n (c ++ t) = .ok (t, leNat c) := by
  subst h
  have hle : c.length ≤ (c ++ t).length := by simp
  unfold leNum
  rw [if_pos hle, List.take_left, List.drop_left]

lemma leNum_ok {n : Nat} {i r : List Nat} {a : Nat} (h : leNum n i = .ok (r, a)) :
    i = i.take n ++ r ∧ (i.take n).length = n ∧ a = leNat (i.take n) ∧ r = i.drop n := by
  unfold leNum at h
  by_cases hn : n ≤ i.length
  · rw [if_pos hn] at h
    simp only [Except.ok.injEq, Prod.mk.injEq] at h
    obtain ⟨h1, h2⟩ := h
    subst h1
    exact ⟨(List.take_append_drop n i).symm,
      by simp [List.length_take, Nat.min_eq_left hn], h2.symm, rfl⟩
  · rw [if_neg hn] at h; simp at h

lemma takeBytes_append {n : Nat} (c t : List Nat) (h : c.length = n) :
    takeBytes n (c ++ t) = .ok (t, c) := by
  subst h
  have hle : c.length ≤ (c ++ t).length := by simp
  unfold takeBytes
  rw [if_pos hle, List.take_left, List.drop_left]

lemma takeBytes_ok {n : Nat} {i r a : List Nat} (h : takeBytes n i = .ok (r, a)) :
    i = a ++ r ∧ a.length = n := by
  unfold takeBytes at h
  by_cases hn : n ≤ i.length
  · rw [if_pos hn] at h
    simp only [Except.ok.injEq, Prod.mk.injEq] at h
    obtain ⟨h1, h2⟩ := h
    subst h1; subst h2
    exact ⟨(List.take_append_drop n i).symm,
      by simp [List.length_take, Nat.min_eq_left hn]⟩
  · rw [if_neg hn] at h; simp at h

lemma u8_cons (b : Nat) (t : List Nat) : u8 (b :: t) = .ok (t, b) := by
  have h := leNum_append [b] t rfl
  simpa [leNat] using h

lemma u8_ok {i r : List Nat} {a : Nat} (h : u8 i = .ok (r, a)) : i = a :: r := by
  cases i with
  | nil => simp [u8, leNum] at h
  | cons b t =>
    rw [u8_cons] at h
    simp only [Except.ok.injEq, Prod.mk.injEq] at h
    obtain ⟨h1, h2⟩ := h
    subst h1; subst h2
    rfl

lemma tag_append (ts s : List Nat) : tag ts (ts ++ s) = .ok (s, ts) := by
  unfold tag
  rw [if_pos (List.take_left ts s), List.drop_left]

lemma tag_ok {ts i r a : List Nat} (h : tag ts i = .ok (r, a)) :
    i = ts ++ r ∧ a = ts := by
  unfold tag at h
  by_cases hc : i.take ts.length = ts
  · rw [if_pos hc] at h
    simp only [Except.ok.injEq, Prod.mk.injEq] at h
    obtain ⟨h1, h2⟩ := h
    subst h1
    refine ⟨?_, h2.symm⟩
    conv_lhs => rw [← List.take_append_drop ts.length i]
    rw [hc]
  · rw [if_neg hc] at h; simp at h

lemma boolean_cons (b : Nat) (t : List Nat) : boolean (b :: t) = .ok (t, b != 0) := rfl

lemma ranked_status_cons (b : Nat) (t : List Nat) :
    ranked_status (b :: t) =
      if b = 0 then .ok (t, .Unknown)
      else if b = 1 then .ok (t, .Unsubmitted)
      else if b = 2 then .ok (t, .Pending)
      else if b = 4 then .ok (t, .Ranked)
      else if b = 5 then .ok (t, .Approved)
      else if b = 6 then .ok (t, .Qualified)
      else if b = 7 then .ok (t, .Loved)
      else .error ⟨b :: t, .Switch⟩ := by
  unfold ranked_status
  rw [u8_cons]

lemma gameplay_mode_cons (b : Nat) (t : List Nat) :
    gameplay_mode (b :: t) =
      if b = 0 then .ok (t, .Standard)
      else if b = 1 then .ok (t, .Taiko)
      else if b = 2 then .ok (t, .Catch)
      else if b = 3 then .ok (t, .Mania)
      else .error ⟨b :: t, .Switch⟩ := by
  unfold gameplay_mode
  rw [u8_cons]

lemma pbind_err {α β : Type} {p : Parser α} {f : α → Parser β} {i : List Nat}
    {e : NomError} (h : p i = .error e) : pbind p f i = .error e := by
  unfold pbind
  rw [h]

lemma pbind_err2 {α β : Type} {p : Parser α} {f : α → Parser β} {i m : List Nat}
    {a : α} {e : NomError} (h1 : p i = .ok (m, a)) (h2 : f a m = .error e) :
    pbind p f i = .error e := by
  unfold pbind
  rw [h1]
  exact h2

lemma pmap_err {α β : Type} {f : α → β} {p : Parser α} {i : List Nat}
    {e : NomError} (h : p i = .error e) : pmap f p i = .error e := by
  unfold pmap
  rw [h]

lemma leNum_err {n : Nat} {i : List Nat} (h : i.length < n) :
    leNum n i = .error ⟨i, .Eof⟩ := by
  unfold leNum
  rw [if_neg (Nat.not_le.mpr h)]

lemma tag_cons_ne (x b : Nat) (t : List Nat) (h : b ≠ x) :
    tag [x] (b :: t) = .error ⟨b :: t, .Tag⟩ := by
  have hne : (b :: t).take ([x].length) ≠ [x] := by simp [h]
  unfold tag
  rw [if_neg hne]

lemma tag_nil (x : Nat) : tag [x] [] = .error ⟨[], .Tag⟩ := by
  have hne : ([] : List Nat).take ([x].length) ≠ [x] := by simp
  unfold tag
  rw [if_neg hne]

/-! ### The prefix-determined property

A parser is prefix-determined when every successful run consumes an
explicit prefix of its input and behaves the same whatever follows that
prefix.  Every decoder in the source has this property; it is the formal
backbone for the leftover-bytes and unused-field claims. -/

def PD {α : Type} (p : Parser α) : Prop :=
  ∀ i r a, p i = .ok (r, a) → ∃ c, i = c ++ r ∧ ∀ t, p (c ++ t) = .ok (t, a)

lemma pd_ppure {α : Type} (a : α) : PD (ppure a) := by
  intro i r x h
  obtain ⟨h1, h2⟩ := ppure_ok h
  subst h1; subst h2
  exact ⟨[], rfl, fun t => rfl⟩

lemma pd_pbind {α β : Type} {p : Parser α} {f : α → Parser β}
    (hp : PD p) (hf : ∀ a, PD (f a)) : PD (pbind p f) := by
  intro i r b h
  obtain ⟨m, a, h1, h2⟩ := pbind_ok h
  obtain ⟨c1, hc1, hr1⟩ := hp i m a h1
  obtain ⟨c2, hc2, hr2⟩ := hf a m r b h2
  refine ⟨c1 ++ c2, ?_, fun t => ?_⟩
  · rw [hc1, hc2, List.append_assoc]
  · rw [List.append_assoc]
    exact pbind_intro (hr1 (c2 ++ t)) (hr2 t)

lemma pd_pmap {α β : Type} {f : α → β} {p : Parser α} (hp : PD p) : PD (pmap f p) := by
  intro i r b h
  obtain ⟨a, h1, h2⟩ := pmap_ok h
  obtain ⟨c, hc, hrep⟩ := hp i r a h1
  subst h2
  refine ⟨c, hc, fun t => ?_⟩
  unfold pmap
  rw [hrep t]

lemma pd_pcond {α : Type} (c : Prop) [Decidable c] {p : Parser α} (hp : PD p) :
    PD (pcond c p) := by
  unfold pcond
  split
  · exact pd_pmap hp
  · exact pd_ppure none

lemma pd_leNum (n : Nat) : PD (leNum n) := by
  intro i r a h
  obtain ⟨h1, h2, h3, _⟩ := leNum_ok h
  subst h3
  exact ⟨i.take n, h1, fun t => leNum_append _ t h2⟩

lemma pd_takeBytes (n : Nat) : PD (takeBytes n) := by
  intro i r a h
  obtain ⟨h1, h2⟩ := takeBytes_ok h
  exact ⟨a, h1, fun t => takeBytes_append _ t h2⟩

lemma pd_tag (ts : List Nat) : PD (tag ts) := by
  intro i r a h
  obtain ⟨h1, h2⟩ := tag_ok h
  subst h2
  exact ⟨a, h1, fun s => tag_append a s⟩

lemma pd_boolean : PD boolean := by
  intro i r a h
  cases i with
  | nil => simp [boolean] at h
  | cons b t =>
    rw [boolean_cons] at h
    simp only [Except.ok.injEq, Prod.mk.injEq] at h
    obtain ⟨h1, h2⟩ := h
    subst h1; subst h2
    exact ⟨[b], rfl, fun s => rfl⟩

lemma pd_uleb : PD ulebCore := by
  intro i
  induction i with
  | nil => intro r a h; simp [ulebCore] at h
  | cons b rest ih =>
    intro r a h
    simp only [ulebCore] at h
    by_cases hb : b < 128
    · rw [if_pos hb] at h
      simp only [Except.ok.injEq, Prod.mk.injEq] at h
      obtain ⟨h1, h2⟩ := h
      subst h1; subst h2
      refine ⟨[b], rfl, fun t => ?_⟩
      show ulebCore (b :: t) = .ok (t, b)
      simp only [ulebCore]
      rw [if_pos hb]
    · rw [if_neg hb] at h
      cases hrec : ulebCore rest with
      | error e => rw [hrec] at h; simp at h
      | ok pr =>
        obtain ⟨r1, v1⟩ := pr
        rw [hrec] at h
        simp only [Except.ok.injEq, Prod.mk.injEq] at h
        obtain ⟨h1, h2⟩ := h
        subst h1; subst h2
        obtain ⟨c, hc, hrep⟩ := ih _ _ hrec
        refine ⟨b :: c, by rw [hc]; rfl, fun t => ?_⟩
        show ulebCore (b :: (c ++ t)) = .ok (t, b - 128 + 128 * v1)
        simp only [ulebCore]
        rw [if_neg hb, hrep t]

lemma pd_count {α : Type} {p : Parser α} (hp : PD p) : ∀ n, PD (count p n) := by
  intro n
  induction n with
  | zero => exact pd_ppure []
  | succ n ih =>
    have hdef : count p (n + 1) = pbind p (fun a => pmap (fun l => a :: l) (count p n)) :=
      rfl
    rw [hdef]
    exact pd_pbind hp (fun a => pd_pmap ih)

lemma pd_osu_string : PD osu_string := by
  unfold osu_string
  refine pd_pbind (show PD u8 from pd_leNum 1) fun flag => ?_
  split
  · exact pd_pbind pd_uleb fun len => pd_pmap (pd_takeBytes len)
  · exact pd_ppure none

lemma pd_ranked : PD ranked_status := by
  intro i r a h
  cases i with
  | nil => simp [ranked_status, u8, leNum] at h
  | cons b t =>
    rw [ranked_status_cons] at h
    refine ⟨[b], ?_, fun s => ?_⟩
    · split_ifs at h <;> simp_all
    · show ranked_status (b :: s) = .ok (s, a)
      rw [ranked_status_cons]
      split_ifs at h <;> simp_all

lemma pd_gameplay : PD gameplay_mode := by
  intro i r a h
  cases i with
  | nil => simp [gameplay_mode, u8, leNum] at h
  | cons b t =>
    rw [gameplay_mode_cons] at h
    refine ⟨[b], ?_, fun s => ?_⟩
    · split_ifs at h <;> simp_all
    · show gameplay_mode (b :: s) = .ok (s, a)
      rw [gameplay_mode_cons]
      split_ifs at h <;> simp_all

lemma pd_pair : PD int_double_pair := by
  unfold int_double_pair preceded
  refine pd_pbind (pd_pbind (pd_tag [8]) fun _ => pd_leNum 4) fun int => ?_
  refine pd_pbind (pd_pbind (pd_tag [13]) fun _ => pd_leNum 8) fun double => ?_
  exact pd_ppure _

lemma pd_timing : PD timing_point := by
  unfold timing_point
  refine pd_pbind (pd_leNum 8) fun bpm => ?_
  refine pd_pbind (pd_leNum 8) fun song_offset => ?_
  refine pd_pbind pd_boolean fun inherited => ?_
  exact pd_ppure _

lemma pd_star : PD star_ratings := by
  unfold star_ratings
  exact pd_pbind (pd_leNum 4) fun total => pd_count pd_pair total

lemma pd_parse_difficulty (v : Nat) : PD (parse_difficulty v) := by
  unfold parse_difficulty
  split
  · exact pd_pmap (pd_leNum 1)
  · exact pd_leNum 4

lemma pd_size (v : Nat) :
    PD (if v < 20191106 then pmap some le_u32 else ppure none) := by
  split
  · exact pd_pmap (pd_leNum 4)
  · exact pd_ppure none

lemma pd_entry (v : Nat) : PD (beatmap_entry v) := by
  unfold beatmap_entry
  refine pd_pbind (pd_size v) fun _ => ?_
  refine pd_pbind pd_osu_string fun _ => ?_
  refine pd_pbind pd_osu_string fun _ => ?_
  refine pd_pbind pd_osu_string fun _ => ?_
  refine pd_pbind pd_osu_string fun _ => ?_
  refine pd_pbind pd_osu_string fun _ => ?_
  refine pd_pbind pd_osu_string fun _ => ?_
  refine pd_pbind pd_osu_string fun _ => ?_
  refine pd_pbind pd_osu_string fun _ => ?_
  refine pd_pbind pd_osu_string fun _ => ?_
  refine pd_pbind pd_ranked fun _ => ?_
  refine pd_pbind (pd_leNum 2) fun _ => ?_
  refine pd_pbind (pd_leNum 2) fun _ => ?_
  refine pd_pbind (pd_leNum 2) fun _ => ?_
  refine pd_pbind (pd_leNum 8) fun _ => ?_
  refine pd_pbind (pd_parse_difficulty v) fun _ => ?_
  refine pd_pbind (pd_parse_difficulty v) fun _ => ?_
  refine pd_pbind (pd_parse_difficulty v) fun _ => ?_
  refine pd_pbind (pd_parse_difficulty v) fun _ => ?_
  refine pd_pbind (pd_leNum 8) fun _ => ?_
  refine pd_pbind pd_star fun _ => ?_
  refine pd_pbind pd_star fun _ => ?_
  refine pd_pbind pd_star fun _ => ?_
  refine pd_pbind pd_star fun _ => ?_
  refine pd_pbind (pd_leNum 4) fun _ => ?_
  refine pd_pbind (pd_leNum 4) fun _ => ?_
  refine pd_pbind (pd_leNum 4) fun _ => ?_
  refine pd_pbind (pd_leNum 4) fun tpc => ?_
  refine pd_pbind (pd_count pd_timing tpc) fun _ => ?_
  refine pd_pbind (pd_leNum 4) fun _ => ?_
  refine pd_pbind (pd_leNum 4) fun _ => ?_
  refine pd_pbind (pd_leNum 4) fun _ => ?_
  refine pd_pbind (pd_leNum 1) fun _ => ?_
  refine pd_pbind (pd_leNum 1) fun _ => ?_
  refine pd_pbind (pd_leNum 1) fun _ => ?_
  refine pd_pbind (pd_leNum 1) fun _ => ?_
  refine pd_pbind (pd_leNum 2) fun _ => ?_
  refine pd_pbind (pd_leNum 4) fun _ => ?_
  refine pd_pbind pd_gameplay fun _ => ?_
  refine pd_pbind pd_osu_string fun _ => ?_
  refine pd_pbind pd_osu_string fun _ => ?_
  refine pd_pbind (pd_leNum 2) fun _ => ?_
  refine pd_pbind pd_osu_string fun _ => ?_
  refine pd_pbind pd_boolean fun _ => ?_
  refine pd_pbind (pd_leNum 8) fun _ => ?_
  refine pd_pbind pd_boolean fun _ => ?_
  refine pd_pbind pd_osu_string fun _ => ?_
  refine pd_pbind (pd_leNum 8) fun _ => ?_
  refine pd_pbind pd_boolean fun _ => ?_
  refine pd_pbind pd_boolean fun _ => ?_
  refine pd_pbind pd_boolean fun _ => ?_
  refine pd_pbind pd_boolean fun _ => ?_
  refine pd_pbind (pd_pcond _ (pd_leNum 4)) fun _ => ?_
  refine pd_pbind (pd_leNum 4) fun _ => ?_
  refine pd_pbind (pd_leNum 1) fun _ => ?_
  exact pd_ppure _

lemma pd_listing : PD beatmap_listing := by
  unfold beatmap_listing
  refine pd_pbind (pd_leNum 4) fun version => ?_
  refine pd_pbind (pd_leNum 4) fun _ => ?_
  refine pd_pbind pd_boolean fun _ => ?_
  refine pd_pbind (pd_leNum 8) fun _ => ?_
  refine pd_pbind pd_osu_string fun _ => ?_
  refine pd_pbind (pd_leNum 4) fun bc => ?_
  refine pd_pbind (pd_count (pd_entry version) bc) fun _ => ?_
  refine pd_pbind (pd_leNum 4) fun _ => ?_
  exact pd_ppure _

lemma leNum_ok2 {n : Nat} {i r : List Nat} {a : Nat} (h : leNum n i = .ok (r, a)) :
    ∃ c, i = c ++ r ∧ c.length = n ∧ a = leNat c := by
  obtain ⟨h1, h2, h3, _⟩ := leNum_ok h
  exact ⟨i.take n, h1, h2, h3⟩

lemma leNum_ok_length {n : Nat} {i r : List Nat} {a : Nat}
    (h : leNum n i = .ok (r, a)) : n ≤ i.length := by
  unfold leNum at h
  by_cases hn : n ≤ i.length
  · exact hn
  · rw [if_neg hn] at h; simp at h

lemma pcond_f32_ok {v : Nat} {i r : List Nat} {a : Option Nat}
    (h : pcond (v < 20140609) le_f32 i = .ok (r, a)) :
    ∃ c, i = c ++ r ∧ c.length = (if v < 20140609 then 4 else 0) := by
  by_cases hv : v < 20140609
  · rw [if_pos hv]
    unfold pcond at h
    rw [if_pos hv] at h
    obtain ⟨x, h1, _⟩ := pmap_ok h
    obtain ⟨hh1, hh2, _, _⟩ := leNum_ok h1
    exact ⟨i.take 4, hh1, hh2⟩
  · rw [if_neg hv]
    unfold pcond at h
    rw [if_neg hv] at h
    obtain ⟨h1, _⟩ := ppure_ok h
    subst h1
    exact ⟨[], rfl, rfl⟩

lemma pcond_f32_append {v : Nat} (c t : List Nat)
    (h : c.length = (if v < 20140609 then 4 else 0)) :
    ∃ a, pcond (v < 20140609) le_f32 (c ++ t) = .ok (t, a) := by
  by_cases hv : v < 20140609
  · rw [if_pos hv] at h
    refine ⟨some (leNat c), ?_⟩
    unfold pcond
    rw [if_pos hv]
    unfold pmap
    rw [show le_f32 (c ++ t) = .ok (t, leNat c) from leNum_append c t h]
  · rw [if_neg hv] at h
    have hc : c = [] := List.eq_nil_of_length_eq_zero h
    subst hc
    exact ⟨none, by unfold pcond; rw [if_neg hv]; rfl⟩

/-- Success-shape of the entry decoder: the size field comes from the first
four bytes exactly when the version is below 20191106; the input splits as
a prefix, the unused region (the conditional 4-byte float plus the
unconditional 4-byte field), the mania-scroll-speed byte and the
remainder; and replacing the unused region by any bytes of the same
length leaves the decoded entry and remainder unchanged. -/
lemma entry_ok_decomp (v : Nat) (i r : List Nat) (e : BeatmapEntry)
    (h : beatmap_entry v i = .ok (r, e)) :
    e.size = (if v < 20191106 then some (leNat (i.take 4)) else none) ∧
    (v < 20191106 → 4 ≤ i.length) ∧
    ∃ c u m, i = c ++ (u ++ m :: r) ∧
      u.length = (if v < 20140609 then 4 else 0) + 4 ∧
      e.mania_scroll_speed = m ∧
      ∀ u2, u2.length = (if v < 20140609 then 4 else 0) + 4 →
        beatmap_entry v (c ++ (u2 ++ m :: r)) = .ok (r, e) := by
  unfold beatmap_entry at h
  obtain ⟨s1, v1, h1, h⟩ := pbind_ok h
  obtain ⟨s2, v2, h2, h⟩ := pbind_ok h
  obtain ⟨s3, v3, h3, h⟩ := pbind_ok h
  obtain ⟨s4, v4, h4, h⟩ := pbind_ok h
  obtain ⟨s5, v5, h5, h⟩ := pbind_ok h
  obtain ⟨s6, v6, h6, h⟩ := pbind_ok h
  obtain ⟨s7, v7, h7, h⟩ := pbind_ok h
  obtain ⟨s8, v8, h8, h⟩ := pbind_ok h
  obtain ⟨s9, v9, h9, h⟩ := pbind_ok h
  obtain ⟨s10, v10, h10, h⟩ := pbind_ok h
  obtain ⟨s11, v11, h11, h⟩ := pbind_ok h
  obtain ⟨s12, v12, h12, h⟩ := pbind_ok h
  obtain ⟨s13, v13, h13, h⟩ := pbind_ok h
  obtain ⟨s14, v14, h14, h⟩ := pbind_ok h
  obtain ⟨s15, v15, h15, h⟩ := pbind_ok h
  obtain ⟨s16, v16, h16, h⟩ := pbind_ok h
  obtain ⟨s17, v17, h17, h⟩ := pbind_ok h
  obtain ⟨s18, v18, h18, h⟩ := pbind_ok h
  obtain ⟨s19, v19, h19, h⟩ := pbind_ok h
  obtain ⟨s20, v20, h20, h⟩ := pbind_ok h
  obtain ⟨s21, v21, h21, h⟩ := pbind_ok h
  obtain ⟨s22, v22, h22, h⟩ := pbind_ok h
  obtain ⟨s23, v23, h23, h⟩ := pbind_ok h
  obtain ⟨s24, v24, h24, h⟩ := pbind_ok h
  obtain ⟨s25, v25, h25, h⟩ := pbind_ok h
  obtain ⟨s26, v26, h26, h⟩ := pbind_ok h
  obtain ⟨s27, v27, h27, h⟩ := pbind_ok h
  obtain ⟨s28, v28, h28, h⟩ := pbind_ok h
  obtain ⟨s29, v29, h29, h⟩ := pbind_ok h
  obtain ⟨s30, v30, h30, h⟩ := pbind_ok h
  obtain ⟨s31, v31, h31, h⟩ := pbind_ok h
  obtain ⟨s32, v32, h32, h⟩ := pbind_ok h
  obtain ⟨s33, v33, h33, h⟩ := pbind_ok h
  obtain ⟨s34, v34, h34, h⟩ := pbind_ok h
  obtain ⟨s35, v35, h35, h⟩ := pbind_ok h
  obtain ⟨s36, v36, h36, h⟩ := pbind_ok h
  obtain ⟨s37, v37, h37, h⟩ := pbind_ok h
  obtain ⟨s38, v38, h38, h⟩ := pbind_ok h
  obtain ⟨s39, v39, h39, h⟩ := pbind_ok h
  obtain ⟨s40, v40, h40, h⟩ := pbind_ok h
  obtain ⟨s41, v41, h41, h⟩ := pbind_ok h
  obtain ⟨s42, v42, h42, h⟩ := pbind_ok h
  obtain ⟨s43, v43, h43, h⟩ := pbind_ok h
  obtain ⟨s44, v44, h44, h⟩ := pbind_ok h
  obtain ⟨s45, v45, h45, h⟩ := pbind_ok h
  obtain ⟨s46, v46, h46, h⟩ := pbind_ok h
  obtain ⟨s47, v47, h47, h⟩ := pbind_ok h
  obtain ⟨s48, v48, h48, h⟩ := pbind_ok h
  obtain ⟨s49, v49, h49, h⟩ := pbind_ok h
  obtain ⟨s50, v50, h50, h⟩ := pbind_ok h
  obtain ⟨s51, v51, h51, h⟩ := pbind_ok h
  obtain ⟨s52, v52, h52, h⟩ := pbind_ok h
  obtain ⟨s53, v53, h53, h⟩ := pbind_ok h
  obtain ⟨s54, v54, h54, h⟩ := pbind_ok h
  obtain ⟨s55, v55, h55, h⟩ := pbind_ok h
  obtain ⟨hieq, heq⟩ := ppure_ok h
  subst heq
  have hieq2 : r = s55 := hieq.symm
  subst hieq2
  obtain ⟨c1, e1, p1⟩ := pd_size v i s1 v1 h1
  obtain ⟨c2, e2, p2⟩ := pd_osu_string s1 s2 v2 h2
  obtain ⟨c3, e3, p3⟩ := pd_osu_string s2 s3 v3 h3
  obtain ⟨c4, e4, p4⟩ := pd_osu_string s3 s4 v4 h4
  obtain ⟨c5, e5, p5⟩ := pd_osu_string s4 s5 v5 h5
  obtain ⟨c6, e6, p6⟩ := pd_osu_string s5 s6 v6 h6
  obtain ⟨c7, e7, p7⟩ := pd_osu_string s6 s7 v7 h7
  obtain ⟨c8, e8, p8⟩ := pd_osu_string s7 s8 v8 h8
  obtain ⟨c9, e9, p9⟩ := pd_osu_string s8 s9 v9 h9
  obtain ⟨c10, e10, p10⟩ := pd_osu_string s9 s10 v10 h10
  obtain ⟨c11, e11, p11⟩ := pd_ranked s10 s11 v11 h11
  obtain ⟨c12, e12, p12⟩ := pd_leNum 2 s11 s12 v12 h12
  obtain ⟨c13, e13, p13⟩ := pd_leNum 2 s12 s13 v13 h13
  obtain ⟨c14, e14, p14⟩ := pd_leNum 2 s13 s14 v14 h14
  obtain ⟨c15, e15, p15⟩ := pd_leNum 8 s14 s15 v15 h15
  obtain ⟨c16, e16, p16⟩ := pd_parse_difficulty v s15 s16 v16 h16
  obtain ⟨c17, e17, p17⟩ := pd_parse_difficulty v s16 s17 v17 h17
  obtain ⟨c18, e18, p18⟩ := pd_parse_difficulty v s17 s18 v18 h18
  obtain ⟨c19, e19, p19⟩ := pd_parse_difficulty v s18 s19 v19 h19
  obtain ⟨c20, e20, p20⟩ := pd_leNum 8 s19 s20 v20 h20
  obtain ⟨c21, e21, p21⟩ := pd_star s20 s21 v21 h21
  obtain ⟨c22, e22, p22⟩ := pd_star s21 s22 v22 h22
  obtain ⟨c23, e23, p23⟩ := pd_star s22 s23 v23 h23
  obtain ⟨c24, e24, p24⟩ := pd_star s23 s24 v24 h24
  obtain ⟨c25, e25, p25⟩ := pd_leNum 4 s24 s25 v25 h25
  obtain ⟨c26, e26, p26⟩ := pd_leNum 4 s25 s26 v26 h26
  obtain ⟨c27, e27, p27⟩ := pd_leNum 4 s26 s27 v27 h27
  obtain ⟨c28, e28, p28⟩ := pd_leNum 4 s27 s28 v28 h28
  obtain ⟨c29, e29, p29⟩ := pd_count pd_timing v28 s28 s29 v29 h29
  obtain ⟨c30, e30, p30⟩ := pd_leNum 4 s29 s30 v30 h30
  obtain ⟨c31, e31, p31⟩ := pd_leNum 4 s30 s31 v31 h31
  obtain ⟨c32, e32, p32⟩ := pd_leNum 4 s31 s32 v32 h32
  obtain ⟨c33, e33, p33⟩ := pd_leNum 1 s32 s33 v33 h33
  obtain ⟨c34, e34, p34⟩ := pd_leNum 1 s33 s34 v34 h34
  obtain ⟨c35, e35, p35⟩ := pd_leNum 1 s34 s35 v35 h35
  obtain ⟨c36, e36, p36⟩ := pd_leNum 1 s35 s36 v36 h36
  obtain ⟨c37, e37, p37⟩ := pd_leNum 2 s36 s37 v37 h37
  obtain ⟨c38, e38, p38⟩ := pd_leNum 4 s37 s38 v38 h38
  obtain ⟨c39, e39, p39⟩ := pd_gameplay s38 s39 v39 h39
  obtain ⟨c40, e40, p40⟩ := pd_osu_string s39 s40 v40 h40
  obtain ⟨c41, e41, p41⟩ := pd_osu_string s40 s41 v41 h41
  obtain ⟨c42, e42, p42⟩ := pd_leNum 2 s41 s42 v42 h42
  obtain ⟨c43, e43, p43⟩ := pd_osu_string s42 s43 v43 h43
  obtain ⟨c44, e44, p44⟩ := pd_boolean s43 s44 v44 h44
  obtain ⟨c45, e45, p45⟩ := pd_leNum 8 s44 s45 v45 h45
  obtain ⟨c46, e46, p46⟩ := pd_boolean s45 s46 v46 h46
  obtain ⟨c47, e47, p47⟩ := pd_osu_string s46 s47 v47 h47
  obtain ⟨c48, e48, p48⟩ := pd_leNum 8 s47 s48 v48 h48
  obtain ⟨c49, e49, p49⟩ := pd_boolean s48 s49 v49 h49
  obtain ⟨c50, e50, p50⟩ := pd_boolean s49 s50 v50 h50
  obtain ⟨c51, e51, p51⟩ := pd_boolean s50 s51 v51 h51
  obtain ⟨c52, e52, p52⟩ := pd_boolean s51 s52 v52 h52
  obtain ⟨c53, e53, l53⟩ := pcond_f32_ok h53
  obtain ⟨c54, e54, l54, _⟩ := leNum_ok2 h54
  have e55 : s54 = v55 :: r := u8_ok h55
  refine ⟨?_, ?_, ?_⟩
  · by_cases hv : v < 20191106
    · rw [if_pos hv]
      rw [if_pos hv] at h1
      obtain ⟨x, hx1, hx2⟩ := pmap_ok h1
      obtain ⟨_, _, hx3, _⟩ := leNum_ok hx1
      show v1 = some (leNat (i.take 4))
      rw [hx2, hx3]
    · rw [if_neg hv]
      rw [if_neg hv] at h1
      obtain ⟨_, hx⟩ := ppure_ok h1
      show v1 = none
      exact hx.symm
  · intro hv
    rw [if_pos hv] at h1
    obtain ⟨x, hx1, _⟩ := pmap_ok h1
    exact leNum_ok_length hx1
  · refine ⟨c1 ++ (c2 ++ (c3 ++ (c4 ++ (c5 ++ (c6 ++ (c7 ++ (c8 ++ (c9 ++ (c10 ++ (c11 ++ (c12 ++ (c13 ++ (c14 ++ (c15 ++ (c16 ++ (c17 ++ (c18 ++ (c19 ++ (c20 ++ (c21 ++ (c22 ++ (c23 ++ (c24 ++ (c25 ++ (c26 ++ (c27 ++ (c28 ++ (c29 ++ (c30 ++ (c31 ++ (c32 ++ (c33 ++ (c34 ++ (c35 ++ (c36 ++ (c37 ++ (c38 ++ (c39 ++ (c40 ++ (c41 ++ (c42 ++ (c43 ++ (c44 ++ (c45 ++ (c46 ++ (c47 ++ (c48 ++ (c49 ++ (c50 ++ (c51 ++ (c52))))))))))))))))))))))))))))))))))))))))))))))))))), c53 ++ c54, v55, ?_, ?_, rfl, ?_⟩
    · rw [e1, e2, e3, e4, e5, e6, e7, e8, e9, e10, e11, e12, e13, e14, e15, e16, e17, e18, e19, e20, e21, e22, e23, e24, e25, e26, e27, e28, e29, e30, e31, e32, e33, e34, e35, e36, e37, e38, e39, e40, e41, e42, e43, e44, e45, e46, e47, e48, e49, e50, e51, e52, e53, e54, e55]
      simp [List.append_assoc]
    · simp [List.length_append, l53, l54]
    · intro u2 hu2
      have hlen1 : (u2.take (if v < 20140609 then 4 else 0)).length =
          (if v < 20140609 then 4 else 0) := by
        rw [List.length_take, hu2]
        exact Nat.min_eq_left (Nat.le_add_right _ 4)
      have hlen2 : (u2.drop (if v < 20140609 then 4 else 0)).length = 4 := by
        rw [List.length_drop, hu2]
        omega
      obtain ⟨aX, h53r⟩ := pcond_f32_append
        (u2.take (if v < 20140609 then 4 else 0))
        ((u2.drop (if v < 20140609 then 4 else 0)) ++ (v55 :: r)) hlen1
      have h53r2 : pcond (v < 20140609) le_f32 (u2 ++ (v55 :: r)) =
          .ok ((u2.drop (if v < 20140609 then 4 else 0)) ++ (v55 :: r), aX) := by
        rw [show u2 ++ (v55 :: r) =
            u2.take (if v < 20140609 then 4 else 0) ++
              ((u2.drop (if v < 20140609 then 4 else 0)) ++ (v55 :: r)) from by
          rw [← List.append_assoc, List.take_append_drop]]
        exact h53r
      have h54r := leNum_append (u2.drop (if v < 20140609 then 4 else 0))
        (v55 :: r) hlen2
      have h55r : u8 (v55 :: r) = .ok (r, v55) := u8_cons _ _
      simp only [List.append_assoc]
      unfold beatmap_entry
      refine pbind_intro (p1 _) ?_
      refine pbind_intro (p2 _) ?_
      refine pbind_intro (p3 _) ?_
      refine pbind_intro (p4 _) ?_
      refine pbind_intro (p5 _) ?_
      refine pbind_intro (p6 _) ?_
      refine pbind_intro (p7 _) ?_
      refine pbind_intro (p8 _) ?_
      refine pbind_intro (p9 _) ?_
      refine pbind_intro (p10 _) ?_
      refine pbind_intro (p11 _) ?_
      refine pbind_intro (p12 _) ?_
      refine pbind_intro (p13 _) ?_
      refine pbind_intro (p14 _) ?_
      refine pbind_intro (p15 _) ?_
      refine pbind_intro (p16 _) ?_
      refine pbind_intro (p17 _) ?_
      refine pbind_intro (p18 _) ?_
      refine pbind_intro (p19 _) ?_
      refine pbind_intro (p20 _) ?_
      refine pbind_intro (p21 _) ?_
      refine pbind_intro (p22 _) ?_
      refine pbind_intro (p23 _) ?_
      refine pbind_intro (p24 _) ?_
      refine pbind_intro (p25 _) ?_
      refine pbind_intro (p26 _) ?_
      refine pbind_intro (p27 _) ?_
      refine pbind_intro (p28 _) ?_
      refine pbind_intro (p29 _) ?_
      refine pbind_intro (p30 _) ?_
      refine pbind_intro (p31 _) ?_
      refine pbind_intro (p32 _) ?_
      refine pbind_intro (p33 _) ?_
      refine pbind_intro (p34 _) ?_
      refine pbind_intro (p35 _) ?_
      refine pbind_intro (p36 _) ?_
      refine pbind_intro (p37 _) ?_
      refine pbind_intro (p38 _) ?_
      refine pbind_intro (p39 _) ?_
      refine pbind_intro (p40 _) ?_
      refine pbind_intro (p41 _) ?_
      refine pbind_intro (p42 _) ?_
      refine pbind_intro (p43 _) ?_
      refine pbind_intro (p44 _) ?_
      refine pbind_intro (p45 _) ?_
      refine pbind_intro (p46 _) ?_
      refine pbind_intro (p47 _) ?_
      refine pbind_intro (p48 _) ?_
      refine pbind_intro (p49 _) ?_
      refine pbind_intro (p50 _) ?_
      refine pbind_intro (p51 _) ?_
      refine pbind_intro (p52 _) ?_
      refine pbind_intro h53r2 ?_
      refine pbind_intro h54r ?_
      refine pbind_intro h55r ?_
      rfl

lemma count_ok_length {α : Type} (p : Parser α) :
    ∀ (n : Nat) (i r : List Nat) (l : List α),
      count p n i = .ok (r, l) → l.length = n := by
  intro n
  induction n with
  | zero =>
    intro i r l h
    obtain ⟨_, h2⟩ := ppure_ok h
    rw [← h2]
    rfl
  | succ n ih =>
    intro i r l h
    obtain ⟨m, a, h1, h2⟩ := pbind_ok h
    obtain ⟨l2, h3, h4⟩ := pmap_ok h2
    subst h4
    simp [ih m r l2 h3]

lemma pbind_err_elim {α β : Type} {p : Parser α} {f : α → Parser β} {i : List Nat}
    {e : NomError} (h : pbind p f i = .error e) :
    p i = .error e ∨ ∃ m a, p i = .ok (m, a) ∧ f a m = .error e := by
  unfold pbind at h
  cases hp : p i with
  | error e2 =>
    rw [hp] at h
    left
    injection h with he
    rw [he]
  | ok pr =>
    obtain ⟨m, a⟩ := pr
    rw [hp] at h
    right
    exact ⟨m, a, rfl, h⟩

lemma pmap_err_elim {α β : Type} {f : α → β} {p : Parser α} {i : List Nat}
    {e : NomError} (h : pmap f p i = .error e) : p i = .error e := by
  unfold pmap at h
  cases hp : p i with
  | error e2 =>
    rw [hp] at h
    injection h with he
    rw [he]
  | ok pr =>
    obtain ⟨m, a⟩ := pr
    rw [hp] at h
    simp at h

lemma count_err {α : Type} (p : Parser α) :
    ∀ (n : Nat) (i : List Nat) (e : NomError), count p n i = .error e →
      ∃ j, j < n ∧ ∃ i2, iterState p j i = some i2 ∧ p i2 = .error e := by
  intro n
  induction n with
  | zero =>
    intro i e h
    simp [count, ppure] at h
  | succ n ih =>
    intro i e h
    have hdef : count p (n + 1) i =
        pbind p (fun a => pmap (fun l => a :: l) (count p n)) i := rfl
    rw [hdef] at h
    rcases pbind_err_elim h with hfail | ⟨m, a, hok, hrest⟩
    · exact ⟨0, Nat.succ_pos n, i, rfl, hfail⟩
    · have hc : count p n m = .error e := pmap_err_elim hrest
      obtain ⟨j, hj, i2, hiter, hfail⟩ := ih m e hc
      refine ⟨j + 1, Nat.succ_lt_succ hj, i2, ?_, hfail⟩
      show iterState p (j + 1) i = some i2
      simp [iterState, hok, hiter]

/-! ### The claims -/

set_option maxRecDepth 8000 in
/-- Claim C1: below header version 20140609 each difficulty statistic is
decoded by consuming exactly one byte and casting it to a float; from
20140609 on it is decoded as a 4-byte little-endian float.  The strategy
depends only on the version, never on the entry content, and the entry
decoder applies it to all four statistics, as the two concrete boundary
decodes (versions 20140608 and 20140609) show. -/
theorem claim1 (v : Nat) (u r : List Nat) (b : Nat) :
    (v < 20140609 → parse_difficulty v (b :: r) = .ok (r, f32bitsOfByte b)) ∧
    (20140609 ≤ v → u.length = 4 → parse_difficulty v (u ++ r) = .ok (r, leNat u)) ∧
    diffStats 20140608 bufA =
      some (f32bitsOfByte 5, f32bitsOfByte 6, f32bitsOfByte 7, f32bitsOfByte 8) ∧
    diffStats 20140609 bufB =
      some (1084227584, 1086324736, 1088421888, 1090519040) := by
  refine ⟨?_, ?_, ?_, ?_⟩
  · intro hv
    unfold parse_difficulty
    rw [if_pos hv]
    unfold pmap
    rw [u8_cons]
  · intro hv hu
    unfold parse_difficulty
    rw [if_neg (Nat.not_lt.mpr hv)]
    exact leNum_append u r hu
  · have h : beatmap_entry 20140608 bufA = .ok ([], entA) := by rfl
    unfold diffStats
    rw [h]
    rfl
  · have h : beatmap_entry 20140609 bufB = .ok ([], entB) := by rfl
    unfold diffStats
    rw [h]
    rfl

theorem claim1_witness :
    parse_difficulty 20140608 [9, 7] = .ok ([7], f32bitsOfByte 9) ∧
    parse_difficulty 20140609 ([0, 0, 160, 64] ++ []) =
      .ok ([], leNat [0, 0, 160, 64]) :=
  ⟨(claim1 20140608 [] [7] 9).1 (by decide),
   (claim1 20140609 [0, 0, 160, 64] [] 0).2.1 (by decide) rfl⟩

set_option maxRecDepth 8000 in
/-- Claim C2: the per-entry size field is read as a leading 4-byte unsigned
integer and stored as present exactly when the version is below 20191106;
otherwise the entry's size is absent.  A short buffer fails on the size
read first when the field is present, and the two concrete decodes show
the same entry bytes shifting by exactly the four size bytes across the
20191106 boundary. -/
theorem claim2 (v : Nat) (i r : List Nat) (e : BeatmapEntry) :
    (beatmap_entry v i = .ok (r, e) →
      (v < 20191106 → 4 ≤ i.length ∧ e.size = some (leNat (i.take 4))) ∧
      (20191106 ≤ v → e.size = none)) ∧
    (v < 20191106 → i.length < 4 → beatmap_entry v i = .error ⟨i, .Eof⟩) ∧
    beatmap_entry 20191106 bufC = .ok ([], entC) ∧
    beatmap_entry 20191105 bufB = .ok ([], entB) := by
  refine ⟨?_, ?_, ?_, ?_⟩
  · intro h
    obtain ⟨hsize, hlen, _⟩ := entry_ok_decomp v i r e h
    constructor
    · intro hv
      refine ⟨hlen hv, ?_⟩
      rw [hsize, if_pos hv]
    · intro hv
      rw [hsize, if_neg (Nat.not_lt.mpr hv)]
  · intro hv hlen
    unfold beatmap_entry
    rw [if_pos hv]
    exact pbind_err (pmap_err (leNum_err hlen))
  · rfl
  · rfl

set_option maxRecDepth 8000 in
theorem claim2_witness :
    entC.size = none ∧ 4 ≤ bufB.length ∧ entB.size = some (leNat (bufB.take 4)) := by
  have hC := ((claim2 20191106 bufC [] entC).1 (by rfl)).2 (by decide)
  have hB := ((claim2 20191105 bufB [] entB).1 (by rfl)).1 (by decide)
  exact ⟨hC, hB.1, hB.2⟩

set_option maxRecDepth 16000 in
/-- Claim C3: the listing decoder decodes the header fields, the counted
entry list configured with the version it just read and the trailing
permissions field, and returns the bytes left after the trailer without
requiring the buffer to be fully consumed: every successful run consumes an
explicit prefix and is unaffected by what follows it, and the concrete
buffer with two junk bytes after the trailer decodes successfully,
returning exactly those bytes. -/
theorem claim3 (i r : List Nat) (L : BeatmapListing) :
    (beatmap_listing i = .ok (r, L) →
      ∃ c, i = c ++ r ∧ ∀ t, beatmap_listing (c ++ t) = .ok (t, L)) ∧
    beatmap_listing bufL = .ok ([222, 173], demoListing) :=
  ⟨fun h => pd_listing i r L h, by rfl⟩

set_option maxRecDepth 16000 in
theorem claim3_witness : beatmap_listing (bufLcore ++ [9]) = .ok ([9], demoListing) := by
  obtain ⟨c, hc, hrep⟩ := (claim3 bufL [222, 173] demoListing).1 (by rfl)
  have hcc : c = bufLcore := by
    have h2 : bufLcore ++ [222, 173] = c ++ [222, 173] := by rw [← hc]; rfl
    exact (List.append_cancel_right h2).symm
  rw [← hcc]
  exact hrep [9]

set_option maxRecDepth 8000 in
/-- Claim C4: the counted-collection decoder returns exactly as many
elements as the count on success, and on failure it propagates the error of
the first failing element decode (reached after some number of successful
element decodes, with no partial list returned); the star-rating instance
reads a 4-byte count and then that many tagged pairs in stream order, as
the concrete decode of a two-element list shows. -/
theorem claim4 (α : Type) (p : Parser α) (n : Nat) (i r : List Nat) (l : List α)
    (e : NomError) :
    (count p n i = .ok (r, l) → l.length = n) ∧
    (count p n i = .error e →
      ∃ j, j < n ∧ ∃ i2, iterState p j i = some i2 ∧ p i2 = .error e) ∧
    star_ratings bufStars =
      .ok ([], [(0, 4608083138725491507), (1, 4612361558371493478)]) :=
  ⟨count_ok_length p n i r l, count_err p n i e, by rfl⟩

theorem claim4_witness :
    count u8 2 [5, 6, 9] = .ok ([9], [5, 6]) ∧ ([5, 6] : List Nat).length = 2 :=
  ⟨by rfl, (claim4 Nat u8 2 [5, 6, 9] [9] [5, 6] ⟨[], .Eof⟩).1 (by rfl)⟩

/-- Claim C5: the tagged-pair decoder succeeds on marker 8, a 4-byte
little-endian integer, marker 13 and an 8-byte float, returning the pair
and leaving everything after unconsumed; a wrong (or missing) first byte
fails with a tag error carrying the whole buffer, and a wrong byte after
the integer fails with a tag error carrying the input positioned right
after the integer. -/
theorem claim5 (I D rest : List Nat) (b : Nat) :
    (I.length = 4 → D.length = 8 →
      int_double_pair (8 :: (I ++ 13 :: (D ++ rest))) =
        .ok (rest, (leNat I, leNat D))) ∧
    (b ≠ 8 → int_double_pair (b :: rest) = .error ⟨b :: rest, .Tag⟩) ∧
    int_double_pair [] = .error ⟨[], .Tag⟩ ∧
    (b ≠ 13 → I.length = 4 →
      int_double_pair (8 :: (I ++ b :: rest)) = .error ⟨b :: rest, .Tag⟩) := by
  refine ⟨?_, ?_, ?_, ?_⟩
  · intro hI hD
    have t1 : tag [8] (8 :: (I ++ 13 :: (D ++ rest))) =
        .ok (I ++ 13 :: (D ++ rest), [8]) := tag_append [8] _
    have t2 : le_u32 (I ++ 13 :: (D ++ rest)) =
        .ok (13 :: (D ++ rest), leNat I) := leNum_append I _ hI
    have t3 : tag [13] (13 :: (D ++ rest)) = .ok (D ++ rest, [13]) :=
      tag_append [13] _
    have t4 : le_f64 (D ++ rest) = .ok (rest, leNat D) := leNum_append D _ hD
    unfold int_double_pair preceded
    exact pbind_intro (pbind_intro t1 t2) (pbind_intro (pbind_intro t3 t4) rfl)
  · intro hb
    unfold int_double_pair preceded
    exact pbind_err (pbind_err (tag_cons_ne 8 b rest hb))
  · unfold int_double_pair preceded
    exact pbind_err (pbind_err (tag_nil 8))
  · intro hb hI
    have t1 : tag [8] (8 :: (I ++ b :: rest)) = .ok (I ++ b :: rest, [8]) :=
      tag_append [8] _
    have t2 : le_u32 (I ++ b :: rest) = .ok (b :: rest, leNat I) :=
      leNum_append I _ hI
    unfold int_double_pair preceded
    exact pbind_err2 (pbind_intro t1 t2)
      (pbind_err (pbind_err (tag_cons_ne 13 b rest hb)))

theorem claim5_witness :
    int_double_pair (8 :: ([100, 0, 0, 0] ++ 13 :: ([1, 2, 3, 4, 5, 6, 7, 8] ++ [9]))) =
      .ok ([9], (leNat [100, 0, 0, 0], leNat [1, 2, 3, 4, 5, 6, 7, 8])) ∧
    int_double_pair (7 :: [1]) = .error ⟨7 :: [1], .Tag⟩ :=
  ⟨(claim5 [100, 0, 0, 0] [1, 2, 3, 4, 5, 6, 7, 8] [9] 0).1 (by decide) (by decide),
   (claim5 [] [] [1] 7).2.1 (by decide)⟩

/-- Claim C6: ranked-status decoding maps the bytes 0, 1, 2, 4, 5, 6, 7 to
Unknown, Unsubmitted, Pending, Ranked, Approved, Qualified and Loved, and
fails with an invalid-discriminant (Switch) error on every other byte,
including 3, yielding no default variant. -/
theorem claim6 (b : Nat) (rest : List Nat) :
    (b = 0 → ranked_status (b :: rest) = .ok (rest, .Unknown)) ∧
    (b = 1 → ranked_status (b :: rest) = .ok (rest, .Unsubmitted)) ∧
    (b = 2 → ranked_status (b :: rest) = .ok (rest, .Pending)) ∧
    (b = 4 → ranked_status (b :: rest) = .ok (rest, .Ranked)) ∧
    (b = 5 → ranked_status (b :: rest) = .ok (rest, .Approved)) ∧
    (b = 6 → ranked_status (b :: rest) = .ok (rest, .Qualified)) ∧
    (b = 7 → ranked_status (b :: rest) = .ok (rest, .Loved)) ∧
    (b ≠ 0 → b ≠ 1 → b ≠ 2 → b ≠ 4 → b ≠ 5 → b ≠ 6 → b ≠ 7 →
      ranked_status (b :: rest) = .error ⟨b :: rest, .Switch⟩) := by
  refine ⟨?_, ?_, ?_, ?_, ?_, ?_, ?_, ?_⟩
  all_goals intro h
  · subst h; simp [ranked_status_cons]
  · subst h; simp [ranked_status_cons]
  · subst h; simp [ranked_status_cons]
  · subst h; simp [ranked_status_cons]
  · subst h; simp [ranked_status_cons]
  · subst h; simp [ranked_status_cons]
  · subst h; simp [ranked_status_cons]
  · intro h1 h2 h4 h5 h6 h7
    rw [ranked_status_cons, if_neg h, if_neg h1, if_neg h2, if_neg h4,
      if_neg h5, if_neg h6, if_neg h7]

theorem claim6_witness :
    ranked_status (3 :: []) = .error ⟨3 :: [], .Switch⟩ ∧
    ranked_status (4 :: [9]) = .ok ([9], .Ranked) :=
  ⟨(claim6 3 []).2.2.2.2.2.2.2 (by decide) (by decide) (by decide) (by decide)
      (by decide) (by decide) (by decide),
   (claim6 4 [9]).2.2.2.1 rfl⟩

/-- Claim C7: gameplay-mode decoding maps the bytes 0, 1, 2, 3 to Standard,
Taiko, Catch and Mania, and fails with an invalid-discriminant (Switch)
error on every other byte. -/
theorem claim7 (b : Nat) (rest : List Nat) :
    (b = 0 → gameplay_mode (b :: rest) = .ok (rest, .Standard)) ∧
    (b = 1 → gameplay_mode (b :: rest) = .ok (rest, .Taiko)) ∧
    (b = 2 → gameplay_mode (b :: rest) = .ok (rest, .Catch)) ∧
    (b = 3 → gameplay_mode (b :: rest) = .ok (rest, .Mania)) ∧
    (b ≠ 0 → b ≠ 1 → b ≠ 2 → b ≠ 3 →
      gameplay_mode (b :: rest) = .error ⟨b :: rest, .Switch⟩) := by
  refine ⟨?_, ?_, ?_, ?_, ?_⟩
  all_goals intro h
  · subst h; simp [gameplay_mode_cons]
  · subst h; simp [gameplay_mode_cons]
  · subst h; simp [gameplay_mode_cons]
  · subst h; simp [gameplay_mode_cons]
  · intro h1 h2 h3
    rw [gameplay_mode_cons, if_neg h, if_neg h1, if_neg h2, if_neg h3]

theorem claim7_witness :
    gameplay_mode (10 :: []) = .error ⟨10 :: [], .Switch⟩ ∧
    gameplay_mode (3 :: [8]) = .ok ([8], .Mania) :=
  ⟨(claim7 10 []).2.2.2.2 (by decide) (by decide) (by decide) (by decide),
   (claim7 3 [8]).2.2.2.1 rfl⟩

/-- Claim C8 (corrected): a rejected enum or marker byte produces an error
carrying the remaining input positioned at the offending byte (so the byte
value itself is the head of the carried input) and an error kind that
distinguishes enum-discriminant failures (Switch) from framing-marker
failures (Tag) — but not which field was being decoded, since nom's simple
error type carries only the input slice and the kind. -/
theorem claim8 (b : Nat) (rest : List Nat) :
    (b ≠ 0 → b ≠ 1 → b ≠ 2 → b ≠ 4 → b ≠ 5 → b ≠ 6 → b ≠ 7 →
      ranked_status (b :: rest) = .error ⟨b :: rest, .Switch⟩) ∧
    (b ≠ 0 → b ≠ 1 → b ≠ 2 → b ≠ 3 →
      gameplay_mode (b :: rest) = .error ⟨b :: rest, .Switch⟩) ∧
    (b ≠ 8 → tag [8] (b :: rest) = .error ⟨b :: rest, .Tag⟩) ∧
    (b ≠ 13 → tag [13] (b :: rest) = .error ⟨b :: rest, .Tag⟩) := by
  refine ⟨?_, ?_, ?_, ?_⟩
  · intro h0 h1 h2 h4 h5 h6 h7
    rw [ranked_status_cons, if_neg h0, if_neg h1, if_neg h2, if_neg h4,
      if_neg h5, if_neg h6, if_neg h7]
  · intro h0 h1 h2 h3
    rw [gameplay_mode_cons, if_neg h0, if_neg h1, if_neg h2, if_neg h3]
  · intro h
    exact tag_cons_ne 8 b rest h
  · intro h
    exact tag_cons_ne 13 b rest h

/-- The errors produced by the two different enum field decoders on the
same rejected byte are the identical value, so the returned error cannot
carry which field was being decoded, contrary to the claim. -/
theorem claim8_counterexample :
    ranked_status [10] = .error ⟨[10], .Switch⟩ ∧
    gameplay_mode [10] = .error ⟨[10], .Switch⟩ :=
  ⟨rfl, rfl⟩

theorem claim8_witness :
    ranked_status (9 :: []) = .error ⟨9 :: [], .Switch⟩ ∧
    tag [8] (9 :: []) = .error ⟨9 :: [], .Tag⟩ :=
  ⟨(claim8 9 []).1 (by decide) (by decide) (by decide) (by decide) (by decide)
      (by decide) (by decide),
   (claim8 9 []).2.2.1 (by decide)⟩

/-- Claim C9: the timing-point decoder reads two 8-byte little-endian
floats (tempo then offset) and one boolean byte — 17 bytes exactly, no
framing — and returns the triple with everything after left unconsumed. -/
theorem claim9 (B O rest : List Nat) (flag : Nat) (hB : B.length = 8)
    (hO : O.length = 8) :
    timing_point (B ++ (O ++ flag :: rest)) =
      .ok (rest, ⟨leNat B, leNat O, flag != 0⟩) := by
  have t1 : le_f64 (B ++ (O ++ flag :: rest)) = .ok (O ++ flag :: rest, leNat B) :=
    leNum_append B _ hB
  have t2 : le_f64 (O ++ flag :: rest) = .ok (flag :: rest, leNat O) :=
    leNum_append O _ hO
  unfold timing_point
  exact pbind_intro t1 (pbind_intro t2 (pbind_intro (boolean_cons flag rest) rfl))

theorem claim9_witness :
    timing_point ([1, 0, 0, 0, 0, 0, 0, 0] ++ ([2, 0, 0, 0, 0, 0, 0, 0] ++ 1 :: [5])) =
      .ok ([5], ⟨leNat [1, 0, 0, 0, 0, 0, 0, 0], leNat [2, 0, 0, 0, 0, 0, 0, 0],
        (1 : Nat) != 0⟩) :=
  claim9 [1, 0, 0, 0, 0, 0, 0, 0] [2, 0, 0, 0, 0, 0, 0, 0] [5] 1 (by decide) (by decide)

/-- Claim C10: every successful entry decode splits its input into a
prefix, an unused region (the conditionally present 4-byte float plus the
unconditional 4-byte field), the final mania-scroll-speed byte and the
remainder; replacing the unused region by any bytes of the same length
yields the same entry and the same remainder, so those bytes never
influence the decoded result. -/
theorem claim10 (v : Nat) (i r : List Nat) (e : BeatmapEntry)
    (h : beatmap_entry v i = .ok (r, e)) :
    ∃ c u m, i = c ++ (u ++ m :: r) ∧
      u.length = (if v < 20140609 then 4 else 0) + 4 ∧
      e.mania_scroll_speed = m ∧
      ∀ u2, u2.length = (if v < 20140609 then 4 else 0) + 4 →
        beatmap_entry v (c ++ (u2 ++ m :: r)) = .ok (r, e) :=
  (entry_ok_decomp v i r e h).2.2

set_option maxRecDepth 8000 in
theorem claim10_witness :
    beatmap_entry 20140608 bufA = .ok ([], entA) ∧ entA.mania_scroll_speed = 4 := by
  have h : beatmap_entry 20140608 bufA = .ok ([], entA) := by rfl
  obtain ⟨c, u, m, hi, hlen, hm, hrep⟩ := claim10 20140608 bufA [] entA h
  exact ⟨h, rfl⟩

end OsuDb
